import Mathlib

/-!
Verification of the grblHAL embroidery plugin (Tajima/Brother stitch decoders,
stitch queue and real-time job state machine) against its specification.

The development shallowly embeds the C sources:
  * tajima.c   — Tajima DST bit-field decoder (namespace `tajima`)
  * brother.c  — Brother PEC delta decoder (namespace `brother`)
  * embroidery.c — stitch queue, real-time consumer, counters (namespace `embroidery`)

Machine bytes are modelled as `Nat` (always < 256 where it matters; the
bit-tests only inspect the low 8 bits), C `int16_t`/`int32_t` accumulators as
`Int` (no overflow occurs in the ranges exercised), and `float` millimetre
targets as `ℚ` (all targets are integer tenths divided by 10, exact in the
ranges the claims touch).  Files are a byte list together with a read
position; `vfs_read` consumes bytes and `vfs_seek` repositions.
-/

set_option linter.unusedVariables false
set_option maxHeartbeats 1000000
set_option maxRecDepth 8000

/-- stich_type_t from embroidery.h (enum order preserved: Normal = 0). -/
inductive stich_type_t where
  | Normal
  | Trim
  | Jump
  | Stop
  | SequinEject
deriving DecidableEq, Repr

open stich_type_t

/-- stitch_t from embroidery.h: type, color index and relative XY target (mm). -/
structure stitch_t where
  type : stich_type_t
  color : Nat
  x : ℚ
  y : ℚ
deriving DecidableEq, Repr

/-- A readable/seekable file: byte contents plus current read position. -/
structure vfs_file_t where
  data : List Nat
  pos : Nat
deriving DecidableEq, Repr

/-- vfs_read of one byte: returns the byte and the advanced file, or `none`
at end of stream (C's `vfs_read` returning 0). -/
def vfs_read1 (f : vfs_file_t) : Option (Nat × vfs_file_t) :=
  match f.data.drop f.pos with
  | [] => none
  | c :: _ => some (c, ⟨f.data, f.pos + 1⟩)

/-- vfs_read of a 3-byte record as one unit; `none` when fewer than 3 bytes
remain (C's `vfs_read(&sd, 3, 1, file) != 3`). -/
def vfs_read3 (f : vfs_file_t) : Option (Nat × Nat × Nat × vfs_file_t) :=
  match f.data.drop f.pos with
  | b0 :: b1 :: b2 :: _ => some (b0, b1, b2, ⟨f.data, f.pos + 3⟩)
  | _ => none

/-- vfs_seek to an absolute offset. -/
def vfs_seek (f : vfs_file_t) (offset : Nat) : vfs_file_t :=
  ⟨f.data, offset⟩

/-- Number of bytes remaining to be read. -/
def vfs_file_t.remaining (f : vfs_file_t) : Nat :=
  f.data.length - f.pos

/-- Which decoder's get_stitch function pointer is installed in the
`embroidery_t` api structure (NULL at boot). -/
inductive decoder_id where
  | noneInstalled
  | brotherDec
  | tajimaDec
deriving DecidableEq, Repr

/-- The `embroidery_t` api structure from embroidery.h.  Function pointers are
modelled by `decoder_id` tags; metadata fields as in the source. -/
structure embroidery_t where
  get_stitch : decoder_id
  get_thread_color : decoder_id
  name : List Nat
  stitches : ℚ
  color_changes : ℚ
  minx : ℚ
  miny : ℚ
  maxx : ℚ
  maxy : ℚ
  sizex : Int
  sizey : Int
deriving DecidableEq, Repr

namespace tajima

/-- One accumulation statement of get_x/get_y from tajima.c:
`if (b & bit(i)) acc += w` (subtraction is addition of a negative weight). -/
def tstep (b i : Nat) (w x : Int) : Int := if b.testBit i then x + w else x

/-- get_x from tajima.c: signed X displacement of a 3-byte DST record, built
by the source's ten conditional accumulations in source order (innermost
application first). -/
def get_x (b2 b1 b0 : Nat) : Int :=
  tstep b0 1 (-1) (tstep b0 0 1 (tstep b1 1 (-3) (tstep b1 0 3 (tstep b0 3 (-9)
    (tstep b0 2 9 (tstep b1 3 (-27) (tstep b1 2 27 (tstep b2 3 (-81) (tstep b2 2 81 0)))))))))

/-- get_y from tajima.c: signed Y displacement of a 3-byte DST record. -/
def get_y (b2 b1 b0 : Nat) : Int :=
  tstep b0 6 (-1) (tstep b0 7 1 (tstep b1 6 (-3) (tstep b1 7 3 (tstep b0 4 (-9)
    (tstep b0 5 9 (tstep b1 4 (-27) (tstep b1 5 27 (tstep b2 4 (-81) (tstep b2 5 81 0)))))))))

/-- The reference bit-weight table for the X axis, read off the conditionals
of get_x: (byte index (0/1/2), bit position, signed weight). -/
def x_rules : List (Nat × Nat × Int) :=
  [(2, 2, 81), (2, 3, -81), (1, 2, 27), (1, 3, -27), (0, 2, 9), (0, 3, -9),
   (1, 0, 3), (1, 1, -3), (0, 0, 1), (0, 1, -1)]

/-- The reference bit-weight table for the Y axis, read off the conditionals
of get_y. -/
def y_rules : List (Nat × Nat × Int) :=
  [(2, 5, 81), (2, 4, -81), (1, 5, 27), (1, 4, -27), (0, 5, 9), (0, 4, -9),
   (1, 7, 3), (1, 6, -3), (0, 7, 1), (0, 6, -1)]

/-- Select a byte of the record by index (0 → b0, 1 → b1, 2 → b2). -/
def byte_sel (i b2 b1 b0 : Nat) : Nat :=
  match i with
  | 0 => b0
  | 1 => b1
  | _ => b2

/-- Signed sum of the weights of a bit-weight table whose bits are set in the
record: the reference displacement of the specification. -/
def rule_sum (rules : List (Nat × Nat × Int)) (b2 b1 b0 : Nat) : Int :=
  (rules.map (fun r => if (byte_sel r.1 b2 b1 b0).testBit r.2.1 then r.2.2 else 0)).sum

/-- One balanced-ternary digit of `v` (in -1, 0, 1). -/
def bdigit (v : Int) : Int := v.bmod 3

/-- The five balanced-ternary digits of `v` for weights 1, 3, 9, 27, 81. -/
def bdigits (v : Int) : Int × Int × Int × Int × Int :=
  let d0 := bdigit v
  let v1 := (v - d0) / 3
  let d1 := bdigit v1
  let v2 := (v1 - d1) / 3
  let d2 := bdigit v2
  let v3 := (v2 - d2) / 3
  let d3 := bdigit v3
  let v4 := (v3 - d3) / 3
  let d4 := bdigit v4
  (d0, d1, d2, d3, d4)

/-- Set the plus bit (digit = 1) or the minus bit (digit = -1) of one weight. -/
def put_bits (plus minus : Nat) (d : Int) : Nat :=
  if d = 1 then 2 ^ plus else if d = -1 then 2 ^ minus else 0

/-- A record whose X displacement decodes to `v` (for v in [-121, 121]):
digit for weight 1 on b0 bits 0/1, weight 9 on b0 bits 2/3, weight 3 on
b1 bits 0/1, weight 27 on b1 bits 2/3, weight 81 on b2 bits 2/3. -/
def enc_x (v : Int) : Nat × Nat × Nat :=
  let d := bdigits v
  (put_bits 0 1 d.1 + put_bits 2 3 d.2.2.1,
   put_bits 0 1 d.2.1 + put_bits 2 3 d.2.2.2.1,
   put_bits 2 3 d.2.2.2.2)

/-- A record whose Y displacement decodes to `v` (for v in [-121, 121]):
digit for weight 1 on b0 bits 7/6, weight 9 on b0 bits 5/4, weight 3 on
b1 bits 7/6, weight 27 on b1 bits 5/4, weight 81 on b2 bits 5/4. -/
def enc_y (v : Int) : Nat × Nat × Nat :=
  let d := bdigits v
  (put_bits 7 6 d.1 + put_bits 5 4 d.2.2.1,
   put_bits 7 6 d.2.1 + put_bits 5 4 d.2.2.2.1,
   put_bits 5 4 d.2.2.2.2)

/-- Decoder-cursor state of tajima.c: the file-scope static `first_color`
(initialised to -1 at boot; -1 means no synthetic first-color Stop pending). -/
structure state_t where
  first_color : Int
deriving DecidableEq, Repr

/-- get_stitch from tajima.c.  Returns `none` where the C function returns
false (end of pattern), otherwise the produced stitch together with the
updated decoder state and file.  `prev` is the caller's stitch buffer: the C
function writes through a pointer and branches may leave fields untouched.
The sequin toggle `sm` is a function-local variable in the source,
re-initialised to false on every call; the translation binds it locally
exactly as the source does. -/
def get_stitch (st : state_t) (prev : stitch_t) (file : vfs_file_t) :
    Option (stitch_t × state_t × vfs_file_t) :=
  if st.first_color ≠ -1 then
    some ({ prev with type := Stop, color := (st.first_color % 256).toNat },
          ⟨-1⟩, file)
  else
    match vfs_read3 file with
    | none => none
    | some (b0, b1, b2, f) =>
      if b2 &&& 0xF3 = 0xF3 then none
      else
        let sm := false
        let dx := get_x b2 b1 b0
        let dy := get_y b2 b1 b0
        let ty :=
          if b2 &&& 0xC3 = 0xC3 then Stop
          else if b2 &&& 0x43 = 0x43 then prev.type  -- sm toggled here, stitch type untouched
          else if b2 &&& 0x83 = 0x83 then (if sm then SequinEject else Jump)
          else Normal
        some ({ type := ty, color := prev.color, x := (dx : ℚ) / 10, y := (dy : ℚ) / 10 },
              st, f)

/-- get_thread_color from tajima.c: always the string "None". -/
def get_thread_color (color : Nat) : String := "None"

/-- read_meta from tajima.c, on the unread suffix of the file: reads bytes
until CR/LF (line complete, returns true), the ASCII EOF byte 0x1A (returns
false), or stream exhaustion (loop falls through, returns true).  Result:
(return value, bytes collected into buf, bytes consumed). -/
def read_meta_list : List Nat → Bool × List Nat × Nat
  | [] => (true, [], 0)
  | c :: rest =>
    if c = 0x1A then (false, [], 1)
    else if c = 13 ∨ c = 10 then (true, [], 1)
    else
      let r := read_meta_list rest
      (r.1, c :: r.2.1, r.2.2 + 1)

/-- read_meta lifted to files. -/
def read_meta (f : vfs_file_t) : Bool × List Nat × vfs_file_t :=
  let r := read_meta_list (f.data.drop f.pos)
  (r.1, r.2.1, ⟨f.data, f.pos + r.2.2⟩)

/-- strcaps (grblHAL core): uppercase the metadata line in place. -/
def strcaps (s : List Nat) : List Nat :=
  s.map (fun c => if 97 ≤ c ∧ c ≤ 122 then c - 32 else c)

/-- Modelled from the spec: the grblHAL core helper `read_float` (external to
this repository) as used on `KEY:value` metadata lines — parse a decimal
number (optional sign, digits, optional fractional digits) starting at index
`idx`; fails when no digit is present. -/
def read_float (s : List Nat) (idx : Nat) : Option ℚ :=
  let t := s.drop idx
  let sgn : ℚ := if t.headD 0 = 45 then -1 else 1
  let t := if t.headD 0 = 45 ∨ t.headD 0 = 43 then t.drop 1 else t
  let isDigit : Nat → Bool := fun c => decide (48 ≤ c ∧ c ≤ 57)
  let digs := t.takeWhile isDigit
  let t2 := t.drop digs.length
  let fracs := if t2.headD 0 = 46 then (t2.drop 1).takeWhile isDigit else []
  if digs.length + fracs.length = 0 then none
  else
    let ip : Nat := digs.foldl (fun a c => a * 10 + (c - 48)) 0
    let fp : ℚ := (fracs.foldl (fun a c => a * 10 + (c - 48)) 0 : Nat) / (10 ^ fracs.length : Nat)
    some (sgn * ((ip : ℚ) + fp))

/-- The body of the metadata while-loop of tajima_open_file: uppercase the
line, parse a float at index 3 and assign the matching api field. -/
def apply_meta (api : embroidery_t) (meta0 : List Nat) : embroidery_t :=
  let meta := strcaps meta0
  match read_float meta 3 with
  | none => api
  | some value =>
    if meta.take 3 = [83, 84, 58] then { api with stitches := value }
    else if meta.take 3 = [67, 79, 58] then { api with color_changes := value }
    else if meta.take 3 = [43, 88, 58] then { api with maxx := value / 10 }
    else if meta.take 3 = [45, 88, 58] then { api with minx := -value / 10 }
    else if meta.take 3 = [43, 89, 58] then { api with maxy := value / 10 }
    else if meta.take 3 = [45, 89, 58] then { api with miny := -value / 10 }
    else api

/-- The `while (read_meta(meta, file))` loop of tajima_open_file.  Fuel is the
number of unread bytes plus one; when read_meta succeeds without consuming a
byte the stream is exhausted and the C loop would spin forever, so the model
stops (no claim depends on such inputs). -/
def meta_loop : Nat → embroidery_t → vfs_file_t → embroidery_t × vfs_file_t
  | 0, api, f => (api, f)
  | fuel + 1, api, f =>
    let r := read_meta f
    if r.1 then
      if r.2.2.pos = f.pos then (api, f)
      else meta_loop fuel (apply_meta api r.2.1) r.2.2
    else (api, r.2.2)

/-- tajima_open_file from tajima.c: check the "LA:" magic, read the name
line and the metadata lines, install the api entry points and seek to the
fixed 512-byte data offset; on mismatch seek back to 0 and report false.
The source's assignment of `first_color` from a palette is commented out, so
the decoder state `st` passes through unchanged on both paths. -/
def tajima_open_file (f : vfs_file_t) (st : state_t) (api : embroidery_t) :
    Bool × vfs_file_t × state_t × embroidery_t :=
  match vfs_read3 f with
  | some (c0, c1, c2, f1) =>
    if c0 = 0x4C ∧ c1 = 0x41 ∧ c2 = 0x3A then
      let rn := read_meta f1
      let lp := meta_loop (rn.2.2.remaining + 1) api rn.2.2
      let api := { lp.1 with
                     name := rn.2.1, get_stitch := .tajimaDec,
                     get_thread_color := .tajimaDec }
      (true, vfs_seek lp.2 512, st, api)
    else (false, vfs_seek f 0, st, api)
  | none => (false, vfs_seek f 0, st, api)

end tajima

namespace brother

/-- struct pec_thread from brother.c (RGB flattened into three fields). -/
structure pec_thread where
  index : Nat
  id : String
  code : String
  name : String
  cat : String
  r : Nat
  g : Nat
  b : Nat
deriving DecidableEq, Repr

/-- palette_thread_list from brother.c: the fixed 65-entry PEC thread
palette. -/
def palette_thread_list : List pec_thread :=
  [⟨0, "00", "000", "Undefined", "A", 220, 220, 220⟩,
   ⟨1, "1", "000", "Prussian Blue", "A", 26, 10, 148⟩,
   ⟨2, "2", "000", "Blue", "A", 15, 117, 255⟩,
   ⟨3, "3", "000", "Teal Green", "A", 0, 147, 76⟩,
   ⟨4, "4", "000", "Corn Flower Blue", "A", 186, 189, 254⟩,
   ⟨5, "5", "000", "Red", "A", 236, 0, 0⟩,
   ⟨6, "6", "000", "Reddish Brown", "A", 228, 153, 90⟩,
   ⟨7, "7", "000", "Magenta", "A", 204, 72, 171⟩,
   ⟨8, "8", "000", "Light Lilac", "A", 253, 196, 250⟩,
   ⟨9, "9", "000", "Lilac", "A", 221, 132, 205⟩,
   ⟨10, "10", "000", "Mint Green", "A", 107, 211, 138⟩,
   ⟨11, "11", "000", "Deep Gold", "A", 228, 169, 69⟩,
   ⟨12, "12", "000", "Orange", "A", 255, 189, 66⟩,
   ⟨13, "13", "000", "Yellow", "A", 255, 230, 0⟩,
   ⟨14, "14", "000", "Lime Green", "A", 108, 217, 0⟩,
   ⟨15, "15", "000", "Brass", "A", 193, 169, 65⟩,
   ⟨16, "16", "000", "Silver", "A", 181, 173, 151⟩,
   ⟨17, "17", "000", "Russet Brown", "A", 186, 156, 95⟩,
   ⟨18, "18", "000", "Cream Brown", "A", 250, 245, 158⟩,
   ⟨19, "19", "000", "Pewter", "A", 128, 128, 128⟩,
   ⟨20, "20", "000", "Black", "A", 0, 0, 0⟩,
   ⟨21, "21", "000", "Ultramarine", "A", 0, 28, 223⟩,
   ⟨22, "22", "000", "Royal Purple", "A", 223, 0, 184⟩,
   ⟨23, "23", "000", "Dark Gray", "A", 98, 98, 98⟩,
   ⟨24, "24", "000", "Dark Brown", "A", 105, 38, 13⟩,
   ⟨25, "25", "000", "Deep Rose", "A", 255, 0, 96⟩,
   ⟨26, "26", "000", "Light Brown", "A", 191, 130, 0⟩,
   ⟨27, "27", "000", "Salmon Pink", "A", 243, 145, 120⟩,
   ⟨28, "28", "000", "Vermillion", "A", 255, 104, 5⟩,
   ⟨29, "29", "000", "White", "A", 240, 240, 240⟩,
   ⟨30, "30", "000", "Violet", "A", 200, 50, 205⟩,
   ⟨31, "31", "000", "Seacrest", "A", 176, 191, 155⟩,
   ⟨32, "32", "000", "Sky Blue", "A", 101, 191, 235⟩,
   ⟨33, "33", "000", "Pumpkin", "A", 255, 186, 4⟩,
   ⟨34, "34", "000", "Cream Yellow", "A", 255, 240, 108⟩,
   ⟨35, "35", "000", "Khaki", "A", 254, 202, 21⟩,
   ⟨36, "36", "000", "Clay Brown", "A", 243, 129, 1⟩,
   ⟨37, "37", "000", "Leaf Green", "A", 55, 169, 35⟩,
   ⟨38, "38", "000", "Peacock Blue", "A", 35, 70, 95⟩,
   ⟨39, "39", "000", "Gray", "A", 166, 166, 149⟩,
   ⟨40, "40", "000", "Warm Gray", "A", 206, 191, 166⟩,
   ⟨41, "41", "000", "Dark Olive", "A", 150, 170, 2⟩,
   ⟨42, "42", "000", "Linen", "A", 255, 227, 198⟩,
   ⟨43, "43", "000", "Pink", "A", 255, 153, 215⟩,
   ⟨44, "44", "000", "Deep Green", "A", 0, 112, 4⟩,
   ⟨45, "45", "000", "Lavender", "A", 237, 204, 251⟩,
   ⟨46, "46", "000", "Wisteria Violet", "A", 192, 137, 216⟩,
   ⟨47, "47", "000", "Beige", "A", 231, 217, 180⟩,
   ⟨48, "48", "000", "Carmine", "A", 233, 14, 134⟩,
   ⟨49, "49", "000", "Amber Red", "A", 207, 104, 41⟩,
   ⟨50, "50", "000", "Olive Green", "A", 64, 134, 21⟩,
   ⟨51, "51", "000", "Dark Fuschia", "A", 219, 23, 151⟩,
   ⟨52, "52", "000", "Tangerine", "A", 255, 167, 4⟩,
   ⟨53, "53", "000", "Light Blue", "A", 185, 255, 255⟩,
   ⟨54, "54", "000", "Emerald Green", "A", 34, 137, 39⟩,
   ⟨55, "55", "000", "Purple", "A", 182, 18, 205⟩,
   ⟨56, "56", "000", "Moss Green", "A", 0, 170, 0⟩,
   ⟨57, "57", "000", "Flesh Pink", "A", 254, 169, 220⟩,
   ⟨58, "58", "000", "Harvest Gold", "A", 254, 213, 16⟩,
   ⟨59, "59", "000", "Electric Blue", "A", 0, 151, 223⟩,
   ⟨60, "60", "000", "Lemon Yellow", "A", 255, 255, 132⟩,
   ⟨61, "61", "000", "Fresh Green", "A", 207, 231, 116⟩,
   ⟨62, "62", "000", "Applique Material", "A", 255, 200, 100⟩,
   ⟨63, "63", "000", "Applique Position", "A", 255, 200, 200⟩,
   ⟨64, "64", "000", "Applique", "A", 255, 200, 200⟩]

/-- get_thread_color from brother.c: clamp an out-of-range color index to
entry 0, then return the palette entry's name. -/
def get_thread_color (color : Nat) : String :=
  (palette_thread_list.getD (if palette_thread_list.length ≤ color then 0 else color)
    ⟨0, "", "", "", "", 0, 0, 0⟩).name

/-- Decoder-cursor state of brother.c: the static pec_1/pec_2 section
buffers (their raw bytes), the deferred first color and the running palette
cursor. -/
structure state_t where
  pec1 : List Nat
  pec2 : List Nat
  first_color : Int
  color_idx : Nat
deriving DecidableEq, Repr

/-- pec_1.palette_index[i]: the palette bytes start at offset 49 of the
pec_section1_t union (3 + 17 + 11 + 1 + 2 + 1 + 1 + 12 + 1 bytes before). -/
def palette_index (st : state_t) (i : Nat) : Nat := st.pec1.getD (49 + i) 0

/-- Short (1-byte) axis delta: `if ((d = cmd) > 0x3F) d -= 0x80` — a 6-bit
signed value. -/
def short_delta (c : Nat) : Int :=
  if (c : Int) > 0x3F then (c : Int) - 0x80 else (c : Int)

/-- Extended (2-byte) axis delta: low nibble of the first byte shifted left 8
OR'ed with the second byte, sign-extended above 0x7FF — a 12-bit signed
value. -/
def ext_delta (hi lo : Nat) : Int :=
  let d : Int := ((((hi &&& 0xF) <<< 8) ||| lo : Nat) : Int)
  if d > 0x7FF then d - 0x1000 else d

/-- Stitch type carried by an extended axis byte:
`(cmd & 0x20) ? Trim : ((cmd & 0x10) ? Jump : Normal)`. -/
def ext_type (c : Nat) : stich_type_t :=
  if c.testBit 5 then Trim else if c.testBit 4 then Jump else Normal

/-- The Y phase of brother.c get_stitch, entered with the type and X delta
decided by the X phase and `cmd` holding the first Y byte. -/
def parse_y (ty : stich_type_t) (dx : Int) (prev : stitch_t) (st : state_t)
    (cmd : Nat) (f : vfs_file_t) : Option (stitch_t × state_t × vfs_file_t) :=
  if cmd.testBit 7 then
    match vfs_read1 f with
    | none => none
    | some (lo, f1) =>
      some ({ type := ext_type cmd, color := prev.color,
              x := (dx : ℚ) / 10, y := -((ext_delta cmd lo : ℚ)) / 10 }, st, f1)
  else
    some ({ type := ty, color := prev.color,
            x := (dx : ℚ) / 10, y := -((short_delta cmd : ℚ)) / 10 }, st, f)

/-- get_stitch from brother.c.  `none` models the C function returning false
(end of pattern at the 0xFF sentinel, or a truncated record: the C would
then read an indeterminate byte, which the model treats as end of
stream). -/
def get_stitch (st : state_t) (prev : stitch_t) (file : vfs_file_t) :
    Option (stitch_t × state_t × vfs_file_t) :=
  if st.first_color ≠ -1 then
    some ({ type := Stop, color := (st.first_color % 256).toNat, x := 0, y := 0 },
          { st with first_color := -1 }, file)
  else
    match vfs_read1 file with
    | none => none
    | some (cmd, f) =>
      if cmd = 0xFF then none
      else if cmd.testBit 7 then
        if cmd = 0xFE then
          match vfs_read1 f with
          | none => none
          | some (d1, f1) =>
            match vfs_read1 f1 with
            | none => none
            | some (d2, f2) =>
              let idx := st.color_idx + 1
              some ({ type := Stop, color := palette_index st idx, x := 0, y := 0 },
                    { st with color_idx := idx }, f2)
        else
          match vfs_read1 f with
          | none => none
          | some (lo, f1) =>
            let ty := ext_type cmd
            let dx := ext_delta cmd lo
            match vfs_read1 f1 with
            | none => none
            | some (cy, f2) => parse_y ty dx prev st cy f2
      else
        match vfs_read1 f with
        | none => none
        | some (cy, f1) => parse_y Normal (short_delta cmd) prev st cy f1

/-- A 16-bit little-endian signed value (pec_section2_t width/height). -/
def int16_le (lo hi : Nat) : Int :=
  let v : Int := (lo + 256 * hi : Nat)
  if v ≥ 0x8000 then v - 0x10000 else v

/-- brother_open_file from brother.c: check the 12-byte "#PES" header, seek
to the PEC section offset (little-endian uint32 at header bytes 8..11), read
the two PEC sections, install the api entry points and arm the deferred
first-color Stop from palette_index[0]; on mismatch seek back to 0 and
report false.  Partial section reads keep the previous static buffer
bytes. -/
def brother_open_file (f : vfs_file_t) (st : state_t) (api : embroidery_t) :
    Bool × vfs_file_t × state_t × embroidery_t :=
  let hdr := (f.data.drop f.pos).take 12
  if hdr.length = 12 ∧ hdr.take 4 = [0x23, 0x50, 0x45, 0x53] then
    let pec_offset := hdr.getD 8 0 + 256 * hdr.getD 9 0 + 65536 * hdr.getD 10 0 +
      16777216 * hdr.getD 11 0
    let f2 := vfs_seek ⟨f.data, f.pos + 12⟩ pec_offset
    let r1 := (f2.data.drop f2.pos).take 512
    let pec1 := r1 ++ st.pec1.drop r1.length
    let f3 : vfs_file_t := ⟨f2.data, f2.pos + r1.length⟩
    let r2 := (f3.data.drop f3.pos).take 36
    let pec2 := r2 ++ st.pec2.drop r2.length
    let f4 : vfs_file_t := ⟨f3.data, f3.pos + r2.length⟩
    let st := { st with
                pec1 := pec1, pec2 := pec2, color_idx := 0,
                first_color := ((pec1.getD 49 0 : Nat) : Int) }
    let api := { api with
                 name := pec1.drop 3 |>.take 17,
                 sizex := int16_le (pec2.getD 8 0) (pec2.getD 9 0),
                 sizey := int16_le (pec2.getD 10 0) (pec2.getD 11 0),
                 get_stitch := .brotherDec, get_thread_color := .brotherDec }
    (true, f4, st, api)
  else (false, vfs_seek f 0, st, api)

end brother

namespace embroidery

/-- The grblHAL machine states the plugin inspects (sys_state_t). -/
inductive machine_state_t where
  | Idle
  | Cycle
  | Hold
  | Other
deriving DecidableEq, Repr

/-- embroidery_job_details_t from embroidery.c: per-type stitch counters. -/
structure embroidery_job_details_t where
  jumps : Nat
  stitches : Nat
  trims : Nat
  thread_changes : Nat
  sequin_ejects : Nat
deriving DecidableEq, Repr

/-- embroidery_await_t: the pause / trigger / jump await bits. -/
structure embroidery_await_t where
  pause : Bool
  trigger : Bool
  jump : Bool
deriving DecidableEq, Repr

/-- `await.value` of the C union: any await bit set. -/
def embroidery_await_t.value (a : embroidery_await_t) : Bool :=
  a.pause || a.trigger || a.jump

/-- stitch_queue_t: ring buffer of STITCH_QUEUE_SIZE = 8 slots; head and tail
are advanced with the bit mask `& 7`, modelled by `Fin 8` addition. -/
structure stitch_queue_t where
  head : Fin 8
  tail : Fin 8
  stitch : Fin 8 → stitch_t

instance : DecidableEq stitch_queue_t := fun a b => by
  cases a; cases b
  exact decidable_of_iff _ (iff_of_eq (stitch_queue_t.mk.injEq ..)).symm

/-- Machine position (coord_data_t restricted to the axes the plugin moves). -/
structure coordq where
  x : ℚ
  y : ℚ
  z : ℚ
deriving DecidableEq, Repr

/-- embroidery_job_t from embroidery.c.  External-world effects (stream
redirection, open file handle, planner condition, deferred tasks added with
task_add_immediate) are modelled by the booleans / counters at the end; the
static `last_ms` of onStateChanged is hoisted into the record. -/
structure embroidery_job_t where
  enqueued : Bool
  completed : Bool
  paused : Bool
  stitching : Bool
  first : Bool
  await : embroidery_await_t
  trigger_interval : Nat
  trigger_interval_min : Nat
  last_trigger : Nat
  last_ms : Nat
  stitch_interval : Nat
  programmed : embroidery_job_details_t
  executed : embroidery_job_details_t
  errs : Nat
  exced : Nat
  breaks : Nat
  spindle_stop : Nat
  spindle_on : Bool
  machine_state : machine_state_t
  file_open : Bool
  stream_redirected : Bool
  rapid_motion : Bool
  position : coordq
  color : Nat
  queue : stitch_queue_t
  pending_trims : Nat
  pending_changes : Nat

instance : DecidableEq embroidery_job_t := fun a b => by
  cases a; cases b
  exact decidable_of_iff _ (iff_of_eq (embroidery_job_t.mk.injEq ..)).symm

/-- Per-tick environment: HAL tick count, free planner blocks, the mc_line
return value for jumps, and the settings consulted by the tick. -/
structure rt_env where
  ticks : Nat
  plan_avail : Nat
  mc_line_busy : Bool
  sync_mode : Bool
  stop_delay : Nat
  z_travel : ℚ
deriving DecidableEq, Repr

/-- spindle_control from embroidery.c (the HAL set_state call is external). -/
def spindle_control (turn_on : Bool) (j : embroidery_job_t) : embroidery_job_t :=
  if j.spindle_on = turn_on then j else { j with spindle_on := turn_on }

/-- end_job from embroidery.c: mark completed/enqueued, restore the stream,
close the file, stop the spindle. -/
def end_job (j : embroidery_job_t) : embroidery_job_t :=
  let j := { j with completed := true, enqueued := true }
  let j := if j.stream_redirected then { j with stream_redirected := false } else j
  let j := if j.file_open then { j with file_open := false } else j
  spindle_control false j

/-- The switch statement of sdcard_read: bump the programmed counter of a
stitch type. -/
def bump (d : embroidery_job_details_t) (t : stich_type_t) : embroidery_job_details_t :=
  match t with
  | stich_type_t.Normal => { d with stitches := d.stitches + 1 }
  | stich_type_t.Jump => { d with jumps := d.jumps + 1 }
  | stich_type_t.Trim => { d with trims := d.trims + 1 }
  | stich_type_t.Stop => { d with thread_changes := d.thread_changes + 1 }
  | stich_type_t.SequinEject => { d with sequin_ejects := d.sequin_ejects + 1 }

/-- sdcard_read from embroidery.c (the producer).  `res` is the outcome of
the installed decoder's get_stitch call (`none` = decoder signalled end of
pattern); `scrib` are the bytes the decoder may have written into the head
slot before failing (the C passes a pointer into the queue). -/
def sdcard_read (res : Option stitch_t) (scrib : stitch_t) (j : embroidery_job_t) :
    embroidery_job_t :=
  if j.enqueued then j
  else
    let bptr := j.queue.head + 1
    if bptr = j.queue.tail then j
    else
      match res with
      | some st =>
        let q := { j.queue with stitch := Function.update j.queue.stitch j.queue.head st }
        let j := { j with queue := q, programmed := bump j.programmed st.type }
        { j with queue := { j.queue with head := bptr } }
      | none =>
        let q := { j.queue with stitch := Function.update j.queue.stitch j.queue.head scrib }
        { j with queue := q, enqueued := true }

/-- The dispatch switch of onExecuteRealtime, entered with the popped stitch
`st` (the queue tail has already been advanced). -/
def dispatch (env : rt_env) (st : stitch_t) (j : embroidery_job_t) : embroidery_job_t :=
  match st.type with
  | stich_type_t.Normal =>
    let j := { j with
               exced := j.exced + 1, rapid_motion := false,
               position := { j.position with
                             x := j.position.x + st.x, y := j.position.y + st.y } }
    let fst := !j.spindle_on
    let j := { j with first := fst }
    let j := if fst then spindle_control true j else j
    let j := { j with await := { j.await with trigger := env.sync_mode } }
    if env.sync_mode then j else { j with position := { j.position with z := env.z_travel } }
  | stich_type_t.Jump =>
    let j := { j with
               executed := { j.executed with jumps := j.executed.jumps + 1 },
               rapid_motion := true,
               position := { j.position with
                             x := j.position.x + st.x, y := j.position.y + st.y } }
    { j with await := { j.await with jump := env.mc_line_busy } }
  | stich_type_t.Trim =>
    let j := { j with
               await := { j.await with pause := true }, rapid_motion := true,
               spindle_stop := env.stop_delay,
               position := { j.position with
                             x := j.position.x + st.x, y := j.position.y + st.y } }
    { j with pending_trims := j.pending_trims + 1 }
  | stich_type_t.Stop =>
    let j := { j with
               await := { j.await with pause := true }, rapid_motion := true,
               position := { j.position with
                             x := j.position.x + st.x, y := j.position.y + st.y } }
    { j with
      color := st.color, pending_changes := j.pending_changes + 1,
      spindle_stop := env.stop_delay }
  | stich_type_t.SequinEject => j

/-- The deferred spindle-stop step at the top of onExecuteRealtime: once the
stop delay has elapsed since the last trigger, stop the needle motor. -/
def spin_stop_check (env : rt_env) (j : embroidery_job_t) : embroidery_job_t :=
  if j.spindle_stop ≠ 0 ∧ env.ticks - j.last_trigger ≥ j.spindle_stop then
    { (spindle_control false j) with spindle_stop := 0 }
  else j

/-- The look-ahead of onExecuteRealtime, run after the tail advance: if the
next queued stitch is not Normal, pulse the jump output (external) or arm an
early spindle stop. -/
def look_ahead (env : rt_env) (j : embroidery_job_t) : embroidery_job_t :=
  if j.stitching then
    if j.queue.tail ≠ j.queue.head ∧ (j.queue.stitch j.queue.tail).type ≠ stich_type_t.Normal then
      if (j.queue.stitch j.queue.tail).type = stich_type_t.Jump then j
      else if env.stop_delay ≠ 0 then { j with spindle_stop := env.stop_delay }
      else j
    else j
  else j

/-- The consuming part of onExecuteRealtime: pop the stitch at tail, perform
the look-ahead, update the stitching flag and spindle, and dispatch. -/
def consume (env : rt_env) (j : embroidery_job_t) : embroidery_job_t :=
  let st := j.queue.stitch j.queue.tail
  let j1 := { j with queue := { j.queue with tail := j.queue.tail + 1 } }
  let j2 := look_ahead env j1
  let stitching2 := st.type = stich_type_t.Normal
  let j3 := { j2 with stitching := stitching2 }
  let j4 :=
    if ¬stitching2 ∧ env.stop_delay = 0 then
      { (spindle_control false j3) with spindle_stop := 0 }
    else j3
  dispatch env st j4

/-- onExecuteRealtime from embroidery.c (the real-time consumer tick).  The
static `busy` reentrancy latch is true only while the tick itself runs, so a
top-level tick always sees it false; calls into the HAL (mc_line, stream,
reporting) are external. -/
def onExecuteRealtime (env : rt_env) (j : embroidery_job_t) : embroidery_job_t :=
  if j.completed then j
  else
    let j := spin_stop_check env j
    if j.await.pause || j.await.trigger || j.await.jump then j
    else if j.enqueued ∧ j.queue.tail = j.queue.head then end_job j
    else if env.plan_avail < 3 then j
    else
      let st := j.queue.stitch j.queue.tail
      if ¬j.stitching ∧ st.type = stich_type_t.Normal ∧ j.machine_state ≠ machine_state_t.Idle then j
      else consume env j

/-- set_needle_trigger from embroidery.c: the needle-trigger interrupt body
(`ms` is hal.get_elapsed_ticks()).  A trigger that arrives while the machine
is still in CYCLE counts an error and returns before the executed-stitch
bump. -/
def set_needle_trigger (ms : Nat) (j : embroidery_job_t) : embroidery_job_t :=
  if j.await.trigger then
    let j := { j with trigger_interval := ms - j.last_trigger }
    let j := { j with trigger_interval_min := min j.trigger_interval_min j.trigger_interval }
    if j.machine_state = machine_state_t.Cycle then { j with errs := j.errs + 1 }
    else
      let j := { j with await := { j.await with trigger := false } }
      { j with
        executed := { j.executed with stitches := j.executed.stitches + 1 },
        last_trigger := ms }
  else
    { j with
      executed := { j.executed with stitches := j.executed.stitches + 1 },
      last_trigger := ms }

/-- The deferred thread_trim handler (default api.thread_trim), run once per
task queued by a Trim dispatch. -/
def run_trim_task (j : embroidery_job_t) : embroidery_job_t :=
  if j.pending_trims = 0 then j
  else
    let j := { j with pending_trims := j.pending_trims - 1 }
    let j := spindle_control false j
    { j with executed := { j.executed with trims := j.executed.trims + 1 } }

/-- The deferred thread_change handler (default api.thread_change), run once
per task queued by a Stop dispatch. -/
def run_change_task (j : embroidery_job_t) : embroidery_job_t :=
  if j.pending_changes = 0 then j
  else
    let j := { j with pending_changes := j.pending_changes - 1 }
    let j := spindle_control false j
    { j with executed := { j.executed with thread_changes := j.executed.thread_changes + 1 } }

/-- onStateChanged from embroidery.c (machine state mirror; debug output and
chained handlers are external). -/
def onStateChanged (ms : Nat) (state : machine_state_t) (j : embroidery_job_t) :
    embroidery_job_t :=
  if j.machine_state = state then j
  else
    let j :=
      match state with
      | machine_state_t.Idle =>
        if j.await.jump then { j with await := { j.await with jump := false } }
        else if j.stitching ∧ j.machine_state = machine_state_t.Cycle then
          { j with stitch_interval := max j.stitch_interval (ms - j.last_ms) }
        else j
      | machine_state_t.Cycle => { j with last_ms := ms }
      | _ => j
    let j :=
      if j.machine_state = machine_state_t.Hold then
        { j with await := { j.await with pause := false } }
      else j
    { j with machine_state := state }

/-- thread_break from embroidery.c: the break-sensor interrupt (the deferred
exec_hold task only emits motion and reporting). -/
def thread_break (j : embroidery_job_t) : embroidery_job_t :=
  if j.file_open ∧ ¬j.await.pause then { j with breaks := j.breaks + 1 } else j

/-- The job state armed by onFileOpen for a streaming job, starting from the
zeroed static `job` of a freshly booted controller (queue slots are zeroed,
so stale slots hold type Normal = 0). -/
def job_init : embroidery_job_t :=
  { enqueued := false, completed := false, paused := false, stitching := false,
    first := false,
    await := ⟨false, false, false⟩,
    trigger_interval := 0, trigger_interval_min := 10000, last_trigger := 0,
    last_ms := 0, stitch_interval := 0,
    programmed := ⟨0, 0, 0, 0, 0⟩, executed := ⟨0, 0, 0, 0, 0⟩,
    errs := 0, exced := 0, breaks := 0,
    spindle_stop := 0, spindle_on := false,
    machine_state := machine_state_t.Idle,
    file_open := true, stream_redirected := true, rapid_motion := true,
    position := ⟨0, 0, 0⟩, color := 0,
    queue := ⟨0, 0, fun _ => ⟨stich_type_t.Normal, 0, 0, 0⟩⟩,
    pending_trims := 0, pending_changes := 0 }

/-- The job events: a stream poll (sdcard_read with the decoder outcome), a
real-time tick, the needle-trigger interrupt, a machine state change, the
deferred trim / thread-change tasks and the break sensor. -/
inductive ev where
  | read (res : Option stitch_t) (scrib : stitch_t)
  | tick (env : rt_env)
  | trigger (ms : Nat)
  | state_change (ms : Nat) (s : machine_state_t)
  | trim_task
  | change_task
  | brk

/-- One event applied to the job state. -/
def stepJ : ev → embroidery_job_t → embroidery_job_t
  | ev.read res scrib, j => sdcard_read res scrib j
  | ev.tick env, j => onExecuteRealtime env j
  | ev.trigger ms, j => set_needle_trigger ms j
  | ev.state_change ms s, j => onStateChanged ms s j
  | ev.trim_task, j => run_trim_task j
  | ev.change_task, j => run_change_task j
  | ev.brk, j => thread_break j

/-- Job state extended with the ghost occupancy: the number of stitches
pushed by the producer and not yet popped by the consumer.  It increases
exactly when the producer advances head and decreases (when nonzero) exactly
when the consumer advances tail. -/
structure jobE where
  job : embroidery_job_t
  occ : Nat
deriving DecidableEq

/-- One event applied to the extended state. -/
def stepE (e : ev) (s : jobE) : jobE :=
  let j2 := stepJ e s.job
  match e with
  | ev.read _ _ => ⟨j2, if j2.queue.head = s.job.queue.head then s.occ else s.occ + 1⟩
  | ev.tick _ => ⟨j2, if j2.queue.tail = s.job.queue.tail then s.occ else s.occ - 1⟩
  | _ => ⟨j2, s.occ⟩

/-- States of a streaming job reachable from the armed initial state. -/
inductive reachable : jobE → Prop where
  | init : reachable ⟨job_init, 0⟩
  | step : ∀ {s : jobE} (e : ev), reachable s → reachable (stepE e s)

/-- Pointer distance of the ring buffer: how many slots lie between tail and
head (the apparent fill level). -/
def cnt (q : stitch_queue_t) : Nat := (q.head.val + 8 - q.tail.val) % 8

theorem fin8_succ_ne : ∀ h : Fin 8, h + 1 ≠ h := by decide

theorem fin8_full_iff (h t : Fin 8) :
    h + 1 = t ↔ (h.val + 8 - t.val) % 8 = 7 := by
  revert h t; decide

theorem fin8_push (h t : Fin 8) (hne : h + 1 ≠ t) :
    ((h + 1).val + 8 - t.val) % 8 = (h.val + 8 - t.val) % 8 + 1 := by
  revert h t; decide

theorem fin8_pop (h t : Fin 8) :
    (h.val + 8 - (t + 1).val) % 8 =
      if h = t then 7 else (h.val + 8 - t.val) % 8 - 1 := by
  revert h t; decide

theorem fin8_empty_iff (h t : Fin 8) :
    h = t ↔ (h.val + 8 - t.val) % 8 = 0 := by
  revert h t; decide

theorem dispatch_queue (env : rt_env) (st : stitch_t) (j : embroidery_job_t) :
    (dispatch env st j).queue = j.queue := by
  unfold dispatch spindle_control
  rcases st with ⟨ty, c, x, y⟩
  cases ty <;> dsimp only <;> split_ifs <;> first | rfl | simp_all

theorem end_job_queue (j : embroidery_job_t) : (end_job j).queue = j.queue := by
  unfold end_job spindle_control
  dsimp only
  split_ifs <;> rfl

theorem spin_stop_check_queue (env : rt_env) (j : embroidery_job_t) :
    (spin_stop_check env j).queue = j.queue := by
  unfold spin_stop_check spindle_control
  split_ifs <;> rfl

theorem look_ahead_queue (env : rt_env) (j : embroidery_job_t) :
    (look_ahead env j).queue = j.queue := by
  unfold look_ahead
  split_ifs <;> rfl

theorem consume_queue (env : rt_env) (j : embroidery_job_t) :
    (consume env j).queue.head = j.queue.head ∧
    (consume env j).queue.stitch = j.queue.stitch ∧
    (consume env j).queue.tail = j.queue.tail + 1 := by
  unfold consume
  dsimp only
  rw [dispatch_queue]
  split_ifs with h
  · simp only [spindle_control, look_ahead_queue]
    split_ifs <;> simp [look_ahead_queue]
  · simp [look_ahead_queue]

/-- The consumer tick never writes head or a queue slot, and either leaves
tail alone or advances it by exactly one. -/
theorem tick_queue (env : rt_env) (j : embroidery_job_t) :
    (onExecuteRealtime env j).queue.head = j.queue.head ∧
    (onExecuteRealtime env j).queue.stitch = j.queue.stitch ∧
    ((onExecuteRealtime env j).queue.tail = j.queue.tail ∨
     (onExecuteRealtime env j).queue.tail = j.queue.tail + 1) := by
  unfold onExecuteRealtime
  dsimp only
  split_ifs with h1 h2 h3 h4 h5
  · exact ⟨rfl, rfl, Or.inl rfl⟩
  · rw [spin_stop_check_queue]
    exact ⟨rfl, rfl, Or.inl rfl⟩
  · rw [end_job_queue, spin_stop_check_queue]
    exact ⟨rfl, rfl, Or.inl rfl⟩
  · rw [spin_stop_check_queue]
    exact ⟨rfl, rfl, Or.inl rfl⟩
  · rw [spin_stop_check_queue]
    exact ⟨rfl, rfl, Or.inl rfl⟩
  · have hc := consume_queue env (spin_stop_check env j)
    rw [spin_stop_check_queue] at hc
    exact ⟨hc.1, hc.2.1, Or.inr hc.2.2⟩

theorem sdcard_read_queue (res : Option stitch_t) (scrib : stitch_t)
    (j : embroidery_job_t) :
    (sdcard_read res scrib j).queue.tail = j.queue.tail ∧
    ((sdcard_read res scrib j).queue.head = j.queue.head ∨
     ((sdcard_read res scrib j).queue.head = j.queue.head + 1 ∧
      j.queue.head + 1 ≠ j.queue.tail)) := by
  unfold sdcard_read
  cases res <;> dsimp only <;> split_ifs <;> simp_all

/-- Events other than the stream poll and the tick never touch the queue. -/
theorem stepJ_queue_const (e : ev) (j : embroidery_job_t)
    (h : ∀ res scrib, e ≠ ev.read res scrib) (h2 : ∀ env, e ≠ ev.tick env) :
    (stepJ e j).queue = j.queue := by
  cases e with
  | read res scrib => exact absurd rfl (h res scrib)
  | tick env => exact absurd rfl (h2 env)
  | trigger ms =>
    unfold stepJ set_needle_trigger
    dsimp only
    split_ifs <;> rfl
  | state_change ms s =>
    unfold stepJ onStateChanged
    cases s <;> dsimp only <;> split_ifs <;> rfl
  | trim_task =>
    unfold stepJ run_trim_task spindle_control
    dsimp only
    split_ifs <;> rfl
  | change_task =>
    unfold stepJ run_change_task spindle_control
    dsimp only
    split_ifs <;> rfl
  | brk =>
    unfold stepJ thread_break
    dsimp only
    split_ifs <;> rfl

/-- The ghost occupancy never exceeds the ring-buffer pointer distance. -/
theorem reachable_occ_le {s : jobE} (h : reachable s) : s.occ ≤ cnt s.job.queue := by
  induction h with
  | init => simp [job_init, cnt]
  | @step s e hs ih =>
    cases e with
    | read res scrib =>
      have hq := sdcard_read_queue res scrib s.job
      simp only [stepE, stepJ]
      rcases hq.2 with hsame | hadv
      · rw [if_pos hsame]
        simp only [cnt]
        rw [hsame, hq.1]
        exact ih
      · have hcond : ¬((sdcard_read res scrib s.job).queue.head = s.job.queue.head) := by
          rw [hadv.1]; exact fin8_succ_ne _
        rw [if_neg hcond]
        simp only [cnt]
        rw [hadv.1, hq.1, fin8_push _ _ hadv.2]
        exact Nat.succ_le_succ ih
    | tick env =>
      have hq := tick_queue env s.job
      simp only [stepE, stepJ]
      rcases hq.2.2 with hsame | hadv
      · rw [if_pos hsame]
        simp only [cnt]
        rw [hsame, hq.1]
        exact ih
      · have hcond : ¬((onExecuteRealtime env s.job).queue.tail = s.job.queue.tail) := by
          rw [hadv]; exact fin8_succ_ne _
        rw [if_neg hcond]
        simp only [cnt]
        rw [hadv, hq.1, fin8_pop]
        by_cases hempty : s.job.queue.head = s.job.queue.tail
        · rw [if_pos hempty]
          have h2 := ih
          unfold cnt at h2
          rw [hempty] at h2
          omega
        · rw [if_neg hempty]
          have h2 := ih
          unfold cnt at h2
          omega
    | trigger ms =>
      have hq := stepJ_queue_const (ev.trigger ms) s.job (by intro _ _ hx; cases hx)
        (by intro _ hx; cases hx)
      simp only [stepE]
      unfold cnt
      rw [hq]
      exact ih
    | state_change ms st =>
      have hq := stepJ_queue_const (ev.state_change ms st) s.job (by intro _ _ hx; cases hx)
        (by intro _ hx; cases hx)
      simp only [stepE]
      unfold cnt
      rw [hq]
      exact ih
    | trim_task =>
      have hq := stepJ_queue_const ev.trim_task s.job (by intro _ _ hx; cases hx)
        (by intro _ hx; cases hx)
      simp only [stepE]
      unfold cnt
      rw [hq]
      exact ih
    | change_task =>
      have hq := stepJ_queue_const ev.change_task s.job (by intro _ _ hx; cases hx)
        (by intro _ hx; cases hx)
      simp only [stepE]
      unfold cnt
      rw [hq]
      exact ih
    | brk =>
      have hq := stepJ_queue_const ev.brk s.job (by intro _ _ hx; cases hx)
        (by intro _ hx; cases hx)
      simp only [stepE]
      unfold cnt
      rw [hq]
      exact ih

end embroidery

example : tajima.get_x 0 0 1 = 1 := by decide
example : tajima.get_x 0 0 2 = -1 := by decide
example : tajima.get_x 8 4 0 = -81 + 27 := by decide
example : tajima.get_y 32 16 0 = 81 - 27 := by decide
example : tajima.rule_sum tajima.x_rules 0 0 1 = 1 := by decide
example :
    tajima.get_x (tajima.enc_x 100).2.2 (tajima.enc_x 100).2.1 (tajima.enc_x 100).1 = 100 := by
  decide
example :
    tajima.get_y (tajima.enc_y (-100)).2.2 (tajima.enc_y (-100)).2.1 (tajima.enc_y (-100)).1
      = -100 := by
  decide

section claims

open tajima brother embroidery

/-- The accumulation step equals adding a selected weight. -/
theorem tstep_eq (b i : Nat) (w x : Int) :
    tajima.tstep b i w x = x + (if b.testBit i then w else 0) := by
  unfold tajima.tstep
  split <;> ring

/-- get_x equals the reference table sum and is bounded by the total weight. -/
theorem get_x_table (b2 b1 b0 : Nat) :
    get_x b2 b1 b0 = rule_sum x_rules b2 b1 b0 ∧
    -121 ≤ get_x b2 b1 b0 ∧ get_x b2 b1 b0 ≤ 121 := by
  unfold get_x rule_sum x_rules byte_sel
  simp only [tstep_eq, List.map_cons, List.map_nil, List.sum_cons, List.sum_nil]
  split_ifs <;> omega

/-- get_y equals the reference table sum and is bounded by the total weight. -/
theorem get_y_table (b2 b1 b0 : Nat) :
    get_y b2 b1 b0 = rule_sum y_rules b2 b1 b0 ∧
    -121 ≤ get_y b2 b1 b0 ∧ get_y b2 b1 b0 ≤ 121 := by
  unfold get_y rule_sum y_rules byte_sel
  simp only [tstep_eq, List.map_cons, List.map_nil, List.sum_cons, List.sum_nil]
  split_ifs <;> omega

/-- Exhaustive check: the balanced-ternary encoder inverts get_x on the whole
legal range. -/
theorem enc_x_all : ∀ v ∈ Finset.Icc (-121 : Int) 121,
    (enc_x v).1 < 256 ∧ (enc_x v).2.1 < 256 ∧ (enc_x v).2.2 < 256 ∧
    get_x (enc_x v).2.2 (enc_x v).2.1 (enc_x v).1 = v := by decide

/-- Exhaustive check: the balanced-ternary encoder inverts get_y on the whole
legal range. -/
theorem enc_y_all : ∀ v ∈ Finset.Icc (-121 : Int) 121,
    (enc_y v).1 < 256 ∧ (enc_y v).2.1 < 256 ∧ (enc_y v).2.2 < 256 ∧
    get_y (enc_y v).2.2 (enc_y v).2.1 (enc_y v).1 = v := by decide

/-- C1 (amended: the fixed table has ten rules per axis, not eleven).  For
every 3-byte record the decoder displacement equals the reference bit-weight
sum over the weights 1, 3, 9, 27, 81; each axis value lies in [-121, 121];
and every value of that range is hit by some byte combination. -/
theorem C1_tajima_bit_weight_code :
    (∀ b2 b1 b0 : Nat,
      get_x b2 b1 b0 = rule_sum x_rules b2 b1 b0 ∧
      get_y b2 b1 b0 = rule_sum y_rules b2 b1 b0 ∧
      (-121 ≤ get_x b2 b1 b0 ∧ get_x b2 b1 b0 ≤ 121) ∧
      (-121 ≤ get_y b2 b1 b0 ∧ get_y b2 b1 b0 ≤ 121)) ∧
    (∀ v : Int, -121 ≤ v → v ≤ 121 →
      (∃ b0 b1 b2, b0 < 256 ∧ b1 < 256 ∧ b2 < 256 ∧ get_x b2 b1 b0 = v) ∧
      (∃ b0 b1 b2, b0 < 256 ∧ b1 < 256 ∧ b2 < 256 ∧ get_y b2 b1 b0 = v)) := by
  constructor
  · intro b2 b1 b0
    obtain ⟨hx1, hx2, hx3⟩ := get_x_table b2 b1 b0
    obtain ⟨hy1, hy2, hy3⟩ := get_y_table b2 b1 b0
    exact ⟨hx1, hy1, ⟨hx2, hx3⟩, hy2, hy3⟩
  · intro v h1 h2
    have hm : v ∈ Finset.Icc (-121 : Int) 121 := Finset.mem_Icc.mpr ⟨h1, h2⟩
    obtain ⟨ha, hb, hc, hd⟩ := enc_x_all v hm
    obtain ⟨ha2, hb2, hc2, hd2⟩ := enc_y_all v hm
    exact ⟨⟨(enc_x v).1, (enc_x v).2.1, (enc_x v).2.2, ha, hb, hc, hd⟩,
           ⟨(enc_y v).1, (enc_y v).2.1, (enc_y v).2.2, ha2, hb2, hc2, hd2⟩⟩

/-- C1 witness: the theorem instantiated at v = 100. -/
theorem C1_tajima_bit_weight_code_witness :
    (∃ b0 b1 b2, b0 < 256 ∧ b1 < 256 ∧ b2 < 256 ∧ get_x b2 b1 b0 = 100) ∧
    (∃ b0 b1 b2, b0 < 256 ∧ b1 < 256 ∧ b2 < 256 ∧ get_y b2 b1 b0 = 100) :=
  C1_tajima_bit_weight_code.2 100 (by decide) (by decide)

/-- C1 counterexample to the claimed rule count: the bit-weight table read
off the source has ten rules per axis (five magnitudes, two signs each), not
eleven. -/
theorem C1_tajima_rule_count :
    x_rules.length = 10 ∧ y_rules.length = 10 ∧ x_rules.length ≠ 11 ∧
    y_rules.length ≠ 11 := by decide


/-- A default-constructed stitch buffer (zeroed static storage). -/
def prev0 : stitch_t := ⟨stich_type_t.Normal, 0, 0, 0⟩

/-- A default api structure (zeroed static storage, no decoder installed). -/
def api0 : embroidery_t :=
  ⟨decoder_id.noneInstalled, decoder_id.noneInstalled, [], 0, 0, 0, 0, 0, 0, 0, 0⟩

/-- C5: the code evaluated on a sequin-toggle record followed by a
jump-masked record.  The toggle record leaves the stitch type untouched, and
because the toggle `sm` is a function-local variable re-initialised to false
on every call, the following jump-masked record decodes as Jump â not as
SequinEject as the specification's persistent-toggle semantics requires. -/
theorem C5_sequin_toggle_is_dead :
    ((tajima.get_stitch ⟨-1⟩ prev0 ⟨[0, 0, 0x43, 0, 0, 0x83], 0⟩).map
        (fun r => (r.1.type, r.2.2.pos))) = some (stich_type_t.Normal, 3) ∧
    ((tajima.get_stitch ⟨-1⟩ prev0 ⟨[0, 0, 0x43, 0, 0, 0x83], 3⟩).map
        (fun r => (r.1.type, r.2.2.pos))) = some (stich_type_t.Jump, 6) ∧
    stich_type_t.Jump ≠ stich_type_t.SequinEject := by
  refine ⟨?_, ?_, ?_⟩ <;> decide

/-- C6: each decoder's end-of-pattern sentinel (and a truncated Tajima
record) terminates decoding with no stitch produced. -/
theorem C6_end_of_pattern :
    (∀ (st : brother.state_t) (prev : stitch_t) (f : vfs_file_t) (rest : List Nat),
      st.first_color = -1 → f.data.drop f.pos = 0xFF :: rest →
      brother.get_stitch st prev f = none) ∧
    (∀ (st : tajima.state_t) (prev : stitch_t) (f : vfs_file_t) (b0 b1 b2 : Nat)
        (rest : List Nat),
      st.first_color = -1 → f.data.drop f.pos = b0 :: b1 :: b2 :: rest →
      b2 &&& 0xF3 = 0xF3 → tajima.get_stitch st prev f = none) ∧
    (∀ (st : tajima.state_t) (prev : stitch_t) (f : vfs_file_t),
      st.first_color = -1 → f.remaining < 3 → tajima.get_stitch st prev f = none) := by
  refine ⟨?_, ?_, ?_⟩
  · intro st prev f rest h1 h2
    simp [brother.get_stitch, vfs_read1, h1, h2]
  · intro st prev f b0 b1 b2 rest h1 h2 h3
    simp [tajima.get_stitch, vfs_read3, h1, h2, h3]
  · intro st prev f h1 h2
    have hl : (f.data.drop f.pos).length < 3 := by
      rw [List.length_drop]
      exact h2
    rcases hdrop : f.data.drop f.pos with _ | ⟨a, _ | ⟨b, _ | ⟨c, r⟩⟩⟩
    · simp [tajima.get_stitch, vfs_read3, h1, hdrop]
    · simp [tajima.get_stitch, vfs_read3, h1, hdrop]
    · simp [tajima.get_stitch, vfs_read3, h1, hdrop]
    · rw [hdrop] at hl
      simp at hl
      omega

/-- C6 witness: the sentinels on concrete streams. -/
theorem C6_end_of_pattern_witness :
    brother.get_stitch ⟨[], [], -1, 0⟩ prev0 ⟨[0xFF, 0], 0⟩ = none ∧
    tajima.get_stitch ⟨-1⟩ prev0 ⟨[0, 0, 0xFB], 0⟩ = none ∧
    tajima.get_stitch ⟨-1⟩ prev0 ⟨[1, 2], 0⟩ = none :=
  ⟨C6_end_of_pattern.1 ⟨[], [], -1, 0⟩ prev0 ⟨[0xFF, 0], 0⟩ [0] rfl rfl,
   C6_end_of_pattern.2.1 ⟨-1⟩ prev0 ⟨[0, 0, 0xFB], 0⟩ 0 0 0xFB [] rfl rfl (by decide),
   C6_end_of_pattern.2.2 ⟨-1⟩ prev0 ⟨[1, 2], 0⟩ rfl (by decide)⟩

/-- Helper for C7: a record of two short (high-bit clear) axis bytes decodes
to a Normal stitch with the sign-extended 6-bit deltas, the Y axis negated,
consuming exactly two bytes. -/
theorem brother_short_short (st : brother.state_t) (prev : stitch_t) (f : vfs_file_t)
    (c1 c2 : Nat) (rest : List Nat) (h1 : st.first_color = -1)
    (h2 : f.data.drop f.pos = c1 :: c2 :: rest) (hc1 : c1 < 0x80) (hc2 : c2 < 0x80) :
    brother.get_stitch st prev f =
      some (⟨stich_type_t.Normal, prev.color, (brother.short_delta c1 : ℚ) / 10,
             -((brother.short_delta c2 : ℚ)) / 10⟩, st, ⟨f.data, f.pos + 1 + 1⟩) := by
  have h3 : f.data.drop (f.pos + 1) = c2 :: rest := by
    rw [← List.tail_drop, h2]
    rfl
  have h7 : c1.testBit 7 = false := Nat.testBit_lt_two_pow hc1
  have h72 : c2.testBit 7 = false := Nat.testBit_lt_two_pow hc2
  have hne : ¬(c1 = 0xFF) := by omega
  simp [brother.get_stitch, vfs_read1, brother.parse_y, h1, h2, h3, h7, h72, hne]

/-- C7: Brother short axis bytes are 6-bit signed values (c when c ≤ 0x3F,
c - 0x80 otherwise, hence in [-64, 63]), the target divides the deltas by 10
with the Y sign inverted, and the record [0x05, 0x05] decodes to a Normal
stitch with target (0.5, -0.5) mm. -/
theorem C7_brother_short_decode :
    (∀ c : Nat, c < 0x80 →
      brother.short_delta c = (if c ≤ 0x3F then (c : Int) else (c : Int) - 0x80) ∧
      -64 ≤ brother.short_delta c ∧ brother.short_delta c ≤ 63) ∧
    (∀ (st : brother.state_t) (prev : stitch_t) (f : vfs_file_t) (c1 c2 : Nat)
        (rest : List Nat),
      st.first_color = -1 → f.data.drop f.pos = c1 :: c2 :: rest → c1 < 0x80 → c2 < 0x80 →
      brother.get_stitch st prev f =
        some (⟨stich_type_t.Normal, prev.color, (brother.short_delta c1 : ℚ) / 10,
               -((brother.short_delta c2 : ℚ)) / 10⟩, st, ⟨f.data, f.pos + 1 + 1⟩)) ∧
    ((brother.get_stitch ⟨[], [], -1, 0⟩ prev0 ⟨[0x05, 0x05], 0⟩).map
        (fun r => (r.1.type, r.1.x, r.1.y))) =
      some (stich_type_t.Normal, 1 / 2, -(1 / 2)) := by
  refine ⟨?_, brother_short_short, ?_⟩
  · intro c hc
    unfold brother.short_delta
    constructor
    · split_ifs <;> omega
    · constructor <;> split_ifs <;> omega
  · rw [brother_short_short ⟨[], [], -1, 0⟩ prev0 ⟨[0x05, 0x05], 0⟩ 5 5 [] rfl rfl
      (by omega) (by omega)]
    simp [brother.short_delta, prev0]
    norm_num

/-- C7 witness: the general record shape instantiated at bytes 5 and 6. -/
theorem C7_brother_short_decode_witness :
    brother.get_stitch ⟨[], [], -1, 0⟩ prev0 ⟨[5, 6], 0⟩ =
      some (⟨stich_type_t.Normal, prev0.color, (brother.short_delta 5 : ℚ) / 10,
             -((brother.short_delta 6 : ℚ)) / 10⟩, ⟨[], [], -1, 0⟩, ⟨[5, 6], 0 + 1 + 1⟩) :=
  C7_brother_short_decode.2.1 ⟨[], [], -1, 0⟩ prev0 ⟨[5, 6], 0⟩ 5 6 [] rfl rfl
    (by decide) (by decide)

/-- C9: on a header mismatch each open function reports false, seeks back to
offset 0 and leaves the api structure (and so its get_stitch and
get_thread_color entries) untouched. -/
theorem C9_header_mismatch :
    (∀ (f : vfs_file_t) (st : brother.state_t) (api : embroidery_t),
      ¬(((f.data.drop f.pos).take 12).length = 12 ∧
        ((f.data.drop f.pos).take 12).take 4 = [0x23, 0x50, 0x45, 0x53]) →
      brother.brother_open_file f st api = (false, vfs_seek f 0, st, api)) ∧
    (∀ (f : vfs_file_t) (st : tajima.state_t) (api : embroidery_t),
      (∀ b0 b1 b2 f1, vfs_read3 f = some (b0, b1, b2, f1) →
        ¬(b0 = 0x4C ∧ b1 = 0x41 ∧ b2 = 0x3A)) →
      tajima.tajima_open_file f st api = (false, vfs_seek f 0, st, api)) ∧
    (∀ f : vfs_file_t, (vfs_seek f 0).pos = 0) := by
  refine ⟨?_, ?_, fun f => rfl⟩
  · intro f st api h
    unfold brother.brother_open_file
    rw [if_neg h]
  · intro f st api h
    unfold tajima.tajima_open_file
    rcases hr : vfs_read3 f with _ | ⟨b0, b1, b2, f1⟩
    · rfl
    · dsimp only
      rw [if_neg (h b0 b1 b2 f1 hr)]

/-- C9 witness: a three-byte stream that matches neither magic. -/
theorem C9_header_mismatch_witness :
    brother.brother_open_file ⟨[1, 2, 3], 0⟩ ⟨[], [], -1, 0⟩ api0 =
      (false, vfs_seek ⟨[1, 2, 3], 0⟩ 0, ⟨[], [], -1, 0⟩, api0) ∧
    tajima.tajima_open_file ⟨[1, 2, 3], 0⟩ ⟨-1⟩ api0 =
      (false, vfs_seek ⟨[1, 2, 3], 0⟩ 0, ⟨-1⟩, api0) :=
  ⟨C9_header_mismatch.1 ⟨[1, 2, 3], 0⟩ ⟨[], [], -1, 0⟩ api0 (by decide),
   C9_header_mismatch.2.1 ⟨[1, 2, 3], 0⟩ ⟨-1⟩ api0 (by
     intro b0 b1 b2 f1 h
     rw [show vfs_read3 ⟨[1, 2, 3], 0⟩ = some (1, 2, 3, ⟨[1, 2, 3], 3⟩) from rfl] at h
     cases h
     decide)⟩

/-- C10: the Brother palette lookup is always in bounds â indices at or past
the 65 palette entries fall back to entry 0 ("Undefined"), in-range indices
return that entry's name. -/
theorem C10_palette_lookup_safe :
    brother.palette_thread_list.length = 65 ∧
    (∀ color : Nat, 65 ≤ color → brother.get_thread_color color = "Undefined") ∧
    (∀ color : Nat, color < 65 →
      brother.get_thread_color color =
        (brother.palette_thread_list.getD color ⟨0, "", "", "", "", 0, 0, 0⟩).name) := by
  have hlen : brother.palette_thread_list.length = 65 := rfl
  refine ⟨hlen, ?_, ?_⟩
  · intro color h
    unfold brother.get_thread_color
    rw [if_pos (by rw [hlen]; exact h)]
    rfl
  · intro color h
    unfold brother.get_thread_color
    rw [if_neg (by rw [hlen]; omega)]

/-- C10 witness: one out-of-range and one in-range index. -/
theorem C10_palette_lookup_safe_witness :
    brother.get_thread_color 100 = "Undefined" ∧
    brother.get_thread_color 5 =
      (brother.palette_thread_list.getD 5 ⟨0, "", "", "", "", 0, 0, 0⟩).name :=
  ⟨C10_palette_lookup_safe.2.1 100 (by decide), C10_palette_lookup_safe.2.2 5 (by decide)⟩


/-- spin_stop_check does nothing while the stop-delay timeout is not due. -/
theorem spin_stop_check_noop (env : rt_env) (j : embroidery_job_t)
    (h : j.spindle_stop = 0 ∨ env.ticks - j.last_trigger < j.spindle_stop) :
    spin_stop_check env j = j := by
  unfold spin_stop_check
  rw [if_neg]
  rintro ⟨h1, h2⟩
  rcases h with h | h <;> omega

/-- spin_stop_check touches only the spindle fields. -/
theorem spin_stop_check_fields (env : rt_env) (j : embroidery_job_t) :
    (spin_stop_check env j).queue = j.queue ∧
    (spin_stop_check env j).executed = j.executed ∧
    (spin_stop_check env j).programmed = j.programmed ∧
    (spin_stop_check env j).await = j.await ∧
    (spin_stop_check env j).enqueued = j.enqueued ∧
    (spin_stop_check env j).completed = j.completed ∧
    (spin_stop_check env j).stitching = j.stitching ∧
    (spin_stop_check env j).machine_state = j.machine_state ∧
    (spin_stop_check env j).pending_trims = j.pending_trims ∧
    (spin_stop_check env j).pending_changes = j.pending_changes := by
  unfold spin_stop_check spindle_control
  split_ifs <;> exact ⟨rfl, rfl, rfl, rfl, rfl, rfl, rfl, rfl, rfl, rfl⟩

/-- end_job marks the job complete without touching the queue or counters. -/
theorem end_job_fields (j : embroidery_job_t) :
    (end_job j).completed = true ∧ (end_job j).enqueued = true ∧
    (end_job j).executed = j.executed ∧ (end_job j).programmed = j.programmed ∧
    (end_job j).pending_trims = j.pending_trims ∧
    (end_job j).pending_changes = j.pending_changes := by
  unfold end_job spindle_control
  dsimp only
  split_ifs <;> exact ⟨rfl, rfl, rfl, rfl, rfl, rfl⟩

/-- C2 (amended).  A tick with any await flag set leaves the queue and both
counter sets alone, and is a full no-op when additionally the spindle
stop-delay timeout is not due; a tick that finds the queue empty with the
end-of-file flag set finalizes the job (completed set, counters and queue
untouched); a tick with fewer than three free planner blocks (and no
await, and not the finalizing case) is a no-op.  The original claim also
promised no effect for an empty queue with the end-of-file flag clear: the
counterexample shows the tick then pops the empty queue. -/
theorem C2_backpressure_amended (env : rt_env) (j : embroidery_job_t) :
    (j.await.value = true →
      (onExecuteRealtime env j).queue = j.queue ∧
      (onExecuteRealtime env j).executed = j.executed ∧
      (onExecuteRealtime env j).programmed = j.programmed) ∧
    ((j.spindle_stop = 0 ∨ env.ticks - j.last_trigger < j.spindle_stop) →
      (j.await.value = true → onExecuteRealtime env j = j) ∧
      (j.await.value = false → j.completed = false → j.enqueued = true →
        j.queue.tail = j.queue.head →
        onExecuteRealtime env j = end_job j ∧ (end_job j).queue = j.queue ∧
        (end_job j).completed = true ∧ (end_job j).executed = j.executed) ∧
      (j.await.value = false → ¬(j.enqueued = true ∧ j.queue.tail = j.queue.head) →
        env.plan_avail < 3 → onExecuteRealtime env j = j)) := by
  have hawait : ∀ hv : j.await.value = true,
      ((spin_stop_check env j).await.pause || (spin_stop_check env j).await.trigger ||
        (spin_stop_check env j).await.jump) = true := by
    intro hv
    rw [(spin_stop_check_fields env j).2.2.2.1]
    exact hv
  constructor
  · intro hv
    unfold onExecuteRealtime
    by_cases hc : j.completed = true
    · rw [if_pos hc]
      exact ⟨rfl, rfl, rfl⟩
    · rw [if_neg hc]
      dsimp only
      rw [if_pos (hawait hv)]
      have hf := spin_stop_check_fields env j
      exact ⟨hf.1, hf.2.1, hf.2.2.1⟩
  · intro hto
    refine ⟨?_, ?_, ?_⟩
    · intro hv
      unfold onExecuteRealtime
      by_cases hc : j.completed = true
      · rw [if_pos hc]
      · rw [if_neg hc]
        dsimp only
        rw [spin_stop_check_noop env j hto]
        rw [if_pos]
        exact hv
    · intro hv hc he ht
      unfold onExecuteRealtime
      rw [if_neg (by rw [hc]; exact Bool.false_ne_true)]
      dsimp only
      rw [spin_stop_check_noop env j hto]
      rw [if_neg (by rw [show (j.await.pause || j.await.trigger || j.await.jump) = false from hv]; exact Bool.false_ne_true)]
      rw [if_pos ⟨he, ht⟩]
      have hf := end_job_fields j
      exact ⟨rfl, end_job_queue j, hf.1, hf.2.2.1⟩
    · intro hv hne hp
      unfold onExecuteRealtime
      by_cases hc : j.completed = true
      · rw [if_pos hc]
      · rw [if_neg hc]
        dsimp only
        rw [spin_stop_check_noop env j hto]
        rw [if_neg (by rw [show (j.await.pause || j.await.trigger || j.await.jump) = false from hv]; exact Bool.false_ne_true)]
        rw [if_neg hne]
        rw [if_pos hp]

/-- C2 counterexample: from the armed initial state (queue empty, no await
flag, end-of-file flag clear, three planner blocks free) one tick advances
the queue tail â it pops the empty queue instead of applying back-pressure,
so the job state is not left unchanged. -/
theorem C2_tick_pops_empty_queue :
    job_init.queue.tail = job_init.queue.head ∧
    job_init.await.value = false ∧ job_init.completed = false ∧
    job_init.enqueued = false ∧
    (onExecuteRealtime ⟨0, 3, false, false, 0, 0⟩ job_init).queue.tail ≠
      job_init.queue.tail := by
  refine ⟨rfl, rfl, rfl, rfl, ?_⟩
  decide

/-- A job state whose queue is empty with the end-of-file flag set. -/
def j_enq : embroidery_job_t := { job_init with enqueued := true }

/-- C2 witness: the finalizing tick at a concrete state. -/
theorem C2_backpressure_amended_witness :
    onExecuteRealtime ⟨5, 9, false, false, 0, 0⟩ j_enq = end_job j_enq :=
  (((C2_backpressure_amended ⟨5, 9, false, false, 0, 0⟩ j_enq).2 (Or.inl rfl)).2.1
    rfl rfl rfl rfl).1

/-- C3 (amended).  The producer is a no-op on a full queue (head + 1 = tail),
and in every reachable state the queue holds at most 7 = N - 1 stitches;
pointer equality head = tail implies the queue holds no stitches.  The
converse of the last implication fails on the code (see the counterexample):
the tick can advance tail past head on an empty queue. -/
theorem C3_queue_invariant_amended :
    (∀ (res : Option stitch_t) (scrib : stitch_t) (j : embroidery_job_t),
      j.queue.head + 1 = j.queue.tail → sdcard_read res scrib j = j) ∧
    (∀ s : jobE, reachable s →
      s.occ ≤ 7 ∧ (s.job.queue.head = s.job.queue.tail → s.occ = 0)) := by
  constructor
  · intro res scrib j h
    unfold sdcard_read
    dsimp only
    split_ifs with h1 h2 <;> first | rfl | exact absurd h h2
  · intro s hs
    have h := reachable_occ_le hs
    have hlt : cnt s.job.queue < 8 := Nat.mod_lt _ (by omega)
    constructor
    · omega
    · intro hempty
      have h0 : cnt s.job.queue = 0 := by
        unfold cnt
        exact (fin8_empty_iff _ _).mp hempty
      omega

/-- C3 counterexample: a reachable state (one tick from the armed initial
state) in which the queue holds no stitches, yet head and tail differ â so
head = tail is not equivalent to emptiness on the code. -/
theorem C3_empty_without_pointer_equality :
    reachable (stepE (ev.tick ⟨0, 3, false, false, 0, 0⟩) ⟨job_init, 0⟩) ∧
    (stepE (ev.tick ⟨0, 3, false, false, 0, 0⟩) ⟨job_init, 0⟩).occ = 0 ∧
    (stepE (ev.tick ⟨0, 3, false, false, 0, 0⟩) ⟨job_init, 0⟩).job.queue.head ≠
      (stepE (ev.tick ⟨0, 3, false, false, 0, 0⟩) ⟨job_init, 0⟩).job.queue.tail :=
  ⟨reachable.step _ reachable.init, by decide, by decide⟩

/-- A job state with a full queue (head + 1 wraps onto tail). -/
def j_full : embroidery_job_t := { job_init with queue := ⟨7, 0, fun _ => prev0⟩ }

/-- C3 witness: the full-queue no-op at a concrete state and the invariant at
the initial state. -/
theorem C3_queue_invariant_amended_witness :
    sdcard_read (some prev0) prev0 j_full = j_full ∧
    (⟨job_init, 0⟩ : jobE).occ ≤ 7 := by
  refine ⟨C3_queue_invariant_amended.1 (some prev0) prev0 j_full (by decide), ?_⟩
  exact (C3_queue_invariant_amended.2 ⟨job_init, 0⟩ reachable.init).1

/-- The look-ahead leaves the executed counters alone. -/
theorem look_ahead_executed (env : rt_env) (j : embroidery_job_t) :
    (look_ahead env j).executed = j.executed := by
  unfold look_ahead
  split_ifs <;> rfl

/-- The look-ahead leaves the programmed counters alone. -/
theorem look_ahead_programmed (env : rt_env) (j : embroidery_job_t) :
    (look_ahead env j).programmed = j.programmed := by
  unfold look_ahead
  split_ifs <;> rfl

/-- The look-ahead schedules no trim task. -/
theorem look_ahead_pending_trims (env : rt_env) (j : embroidery_job_t) :
    (look_ahead env j).pending_trims = j.pending_trims := by
  unfold look_ahead
  split_ifs <;> rfl

/-- The look-ahead schedules no thread-change task. -/
theorem look_ahead_pending_changes (env : rt_env) (j : embroidery_job_t) :
    (look_ahead env j).pending_changes = j.pending_changes := by
  unfold look_ahead
  split_ifs <;> rfl

/-- Dispatch bumps executed.jumps exactly for a Jump stitch and leaves the
other executed counters alone. -/
theorem dispatch_executed (env : rt_env) (st : stitch_t) (j : embroidery_job_t) :
    (dispatch env st j).executed =
      (if st.type = stich_type_t.Jump then
        { j.executed with jumps := j.executed.jumps + 1 }
      else j.executed) := by
  unfold dispatch spindle_control
  rcases st with ⟨ty, c, x, y⟩
  cases ty <;> dsimp only <;> split_ifs <;> first | rfl | simp_all

/-- Dispatch never touches the programmed counters. -/
theorem dispatch_programmed (env : rt_env) (st : stitch_t) (j : embroidery_job_t) :
    (dispatch env st j).programmed = j.programmed := by
  unfold dispatch spindle_control
  rcases st with ⟨ty, c, x, y⟩
  cases ty <;> dsimp only <;> split_ifs <;> first | rfl | simp_all

/-- Dispatch schedules exactly one deferred trim task per Trim stitch. -/
theorem dispatch_pending_trims (env : rt_env) (st : stitch_t) (j : embroidery_job_t) :
    (dispatch env st j).pending_trims =
      j.pending_trims + (if st.type = stich_type_t.Trim then 1 else 0) := by
  unfold dispatch spindle_control
  rcases st with ⟨ty, c, x, y⟩
  cases ty <;> dsimp only <;> split_ifs <;> first | rfl | simp_all

/-- Dispatch schedules exactly one deferred thread-change task per Stop
stitch. -/
theorem dispatch_pending_changes (env : rt_env) (st : stitch_t) (j : embroidery_job_t) :
    (dispatch env st j).pending_changes =
      j.pending_changes + (if st.type = stich_type_t.Stop then 1 else 0) := by
  unfold dispatch spindle_control
  rcases st with ⟨ty, c, x, y⟩
  cases ty <;> dsimp only <;> split_ifs <;> first | rfl | simp_all

/-- The counter effect of the consuming part of a tick, in terms of the type
of the popped stitch. -/
theorem consume_counters (env : rt_env) (j : embroidery_job_t) :
    (consume env j).executed =
      (if (j.queue.stitch j.queue.tail).type = stich_type_t.Jump then
        { j.executed with jumps := j.executed.jumps + 1 }
      else j.executed) ∧
    (consume env j).programmed = j.programmed ∧
    (consume env j).pending_trims =
      j.pending_trims + (if (j.queue.stitch j.queue.tail).type = stich_type_t.Trim then 1 else 0) ∧
    (consume env j).pending_changes =
      j.pending_changes + (if (j.queue.stitch j.queue.tail).type = stich_type_t.Stop then 1 else 0) := by
  unfold consume
  dsimp only
  rw [dispatch_executed, dispatch_programmed, dispatch_pending_trims, dispatch_pending_changes]
  refine ⟨?_, ?_, ?_, ?_⟩ <;>
    split_ifs <;>
    simp_all [apply_ite, spindle_control, look_ahead_executed, look_ahead_programmed,
              look_ahead_pending_trims, look_ahead_pending_changes]

/-- A tick is one of: a pure no-op, the spindle-stop step alone, job
finalization, or a consume of the stitch at tail (always after the
spindle-stop step). -/
theorem tick_cases (env : rt_env) (j : embroidery_job_t) :
    onExecuteRealtime env j = j ∨
    onExecuteRealtime env j = spin_stop_check env j ∨
    onExecuteRealtime env j = end_job (spin_stop_check env j) ∨
    onExecuteRealtime env j = consume env (spin_stop_check env j) := by
  unfold onExecuteRealtime
  dsimp only
  split_ifs <;> tauto

/-- A tick that does not advance the tail dispatches nothing: executed
counters and pending tasks are unchanged. -/
theorem tick_no_dispatch_counters (env : rt_env) (j : embroidery_job_t)
    (h : (onExecuteRealtime env j).queue.tail = j.queue.tail) :
    (onExecuteRealtime env j).executed = j.executed ∧
    (onExecuteRealtime env j).pending_trims = j.pending_trims ∧
    (onExecuteRealtime env j).pending_changes = j.pending_changes := by
  have hfs := spin_stop_check_fields env j
  have he := end_job_fields (spin_stop_check env j)
  rcases tick_cases env j with hc | hc | hc | hc <;> rw [hc] at h ⊢
  · exact ⟨rfl, rfl, rfl⟩
  · exact ⟨hfs.2.1, hfs.2.2.2.2.2.2.2.2.1, hfs.2.2.2.2.2.2.2.2.2⟩
  · exact ⟨he.2.2.1.trans hfs.2.1,
           he.2.2.2.2.1.trans hfs.2.2.2.2.2.2.2.2.1,
           he.2.2.2.2.2.trans hfs.2.2.2.2.2.2.2.2.2⟩
  · exfalso
    have hq := (consume_queue env (spin_stop_check env j)).2.2
    rw [congrArg stitch_queue_t.tail hfs.1] at hq
    rw [hq] at h
    exact fin8_succ_ne _ h

/-- A tick that advances the tail dispatches exactly the stitch at the old
tail: executed.jumps is bumped for a Jump, a trim / thread-change task is
scheduled for Trim / Stop, and nothing else changes in the counters. -/
theorem tick_dispatch_counters (env : rt_env) (j : embroidery_job_t)
    (h : (onExecuteRealtime env j).queue.tail ≠ j.queue.tail) :
    (onExecuteRealtime env j).executed =
      (if (j.queue.stitch j.queue.tail).type = stich_type_t.Jump then
        { j.executed with jumps := j.executed.jumps + 1 }
      else j.executed) ∧
    (onExecuteRealtime env j).pending_trims =
      j.pending_trims + (if (j.queue.stitch j.queue.tail).type = stich_type_t.Trim then 1 else 0) ∧
    (onExecuteRealtime env j).pending_changes =
      j.pending_changes + (if (j.queue.stitch j.queue.tail).type = stich_type_t.Stop then 1 else 0) := by
  have hfs := spin_stop_check_fields env j
  have ht := congrArg stitch_queue_t.tail hfs.1
  rcases tick_cases env j with hc | hc | hc | hc <;> rw [hc] at h ⊢
  · exact absurd rfl h
  · exact absurd ht h
  · exact absurd ((congrArg stitch_queue_t.tail (end_job_queue (spin_stop_check env j))).trans ht) h
  · have hcc := consume_counters env (spin_stop_check env j)
    rw [hfs.2.1, hfs.2.2.2.2.2.2.2.2.1, hfs.2.2.2.2.2.2.2.2.2,
        congrArg stitch_queue_t.stitch hfs.1, congrArg stitch_queue_t.tail hfs.1] at hcc
    exact ⟨hcc.1, hcc.2.2.1, hcc.2.2.2⟩

/-- A tick never touches the programmed counters. -/
theorem tick_programmed (env : rt_env) (j : embroidery_job_t) :
    (onExecuteRealtime env j).programmed = j.programmed := by
  have hfs := spin_stop_check_fields env j
  rcases tick_cases env j with hc | hc | hc | hc <;> rw [hc] <;>
    first
      | rfl
      | exact hfs.2.2.1
      | exact (end_job_fields (spin_stop_check env j)).2.2.2.1.trans hfs.2.2.1
      | exact (consume_counters env (spin_stop_check env j)).2.1.trans hfs.2.2.1

/-- A successful producer poll counts the new stitch in programmed (by type)
and leaves executed alone. -/
theorem sdcard_read_counters (st scrib : stitch_t) (j : embroidery_job_t)
    (h1 : j.enqueued = false) (h2 : j.queue.head + 1 ≠ j.queue.tail) :
    (sdcard_read (some st) scrib j).programmed = bump j.programmed st.type ∧
    (sdcard_read (some st) scrib j).executed = j.executed := by
  unfold sdcard_read
  dsimp only
  rw [if_neg (by rw [h1]; exact Bool.false_ne_true), if_neg h2]
  exact ⟨rfl, rfl⟩

/-- The trigger interrupt counts an executed stitch unless it arrives during
CYCLE with a trigger await pending (which counts an error instead); it never
touches programmed. -/
theorem set_needle_trigger_counters (ms : Nat) (j : embroidery_job_t) :
    (set_needle_trigger ms j).executed.stitches =
      (if j.await.trigger = true ∧ j.machine_state = machine_state_t.Cycle then
        j.executed.stitches
      else j.executed.stitches + 1) ∧
    (set_needle_trigger ms j).executed.jumps = j.executed.jumps ∧
    (set_needle_trigger ms j).executed.trims = j.executed.trims ∧
    (set_needle_trigger ms j).executed.thread_changes = j.executed.thread_changes ∧
    (set_needle_trigger ms j).executed.sequin_ejects = j.executed.sequin_ejects ∧
    (set_needle_trigger ms j).programmed = j.programmed := by
  unfold set_needle_trigger
  dsimp only
  split_ifs <;> simp_all

/-- Each run of the deferred trim task consumes one pending task and counts
one executed trim. -/
theorem run_trim_task_counters (j : embroidery_job_t) (h : 0 < j.pending_trims) :
    (run_trim_task j).executed.trims = j.executed.trims + 1 ∧
    (run_trim_task j).pending_trims = j.pending_trims - 1 ∧
    (run_trim_task j).programmed = j.programmed := by
  unfold run_trim_task spindle_control
  rw [if_neg (by omega)]
  dsimp only
  split_ifs <;> exact ⟨rfl, rfl, rfl⟩

/-- Each run of the deferred thread-change task consumes one pending task and
counts one executed thread change. -/
theorem run_change_task_counters (j : embroidery_job_t) (h : 0 < j.pending_changes) :
    (run_change_task j).executed.thread_changes = j.executed.thread_changes + 1 ∧
    (run_change_task j).pending_changes = j.pending_changes - 1 ∧
    (run_change_task j).programmed = j.programmed := by
  unfold run_change_task spindle_control
  rw [if_neg (by omega)]
  dsimp only
  split_ifs <;> exact ⟨rfl, rfl, rfl⟩

/-- No event ever increments executed.sequin_ejects (the SequinEject dispatch
arm is empty). -/
theorem stepJ_sequin_ejects (e : ev) (j : embroidery_job_t) :
    (stepJ e j).executed.sequin_ejects = j.executed.sequin_ejects := by
  cases e with
  | read res scrib =>
    show (sdcard_read res scrib j).executed.sequin_ejects = j.executed.sequin_ejects
    unfold sdcard_read
    cases res <;> dsimp only <;> split_ifs <;> rfl
  | tick env =>
    show (onExecuteRealtime env j).executed.sequin_ejects = j.executed.sequin_ejects
    by_cases h : (onExecuteRealtime env j).queue.tail = j.queue.tail
    · rw [(tick_no_dispatch_counters env j h).1]
    · rw [(tick_dispatch_counters env j h).1]
      split_ifs <;> rfl
  | trigger ms =>
    exact (set_needle_trigger_counters ms j).2.2.2.2.1
  | state_change ms st =>
    show (onStateChanged ms st j).executed.sequin_ejects = j.executed.sequin_ejects
    unfold onStateChanged
    cases st <;> dsimp only <;> split_ifs <;> rfl
  | trim_task =>
    show (run_trim_task j).executed.sequin_ejects = j.executed.sequin_ejects
    unfold run_trim_task spindle_control
    dsimp only
    split_ifs <;> rfl
  | change_task =>
    show (run_change_task j).executed.sequin_ejects = j.executed.sequin_ejects
    unfold run_change_task spindle_control
    dsimp only
    split_ifs <;> rfl
  | brk =>
    show (thread_break j).executed.sequin_ejects = j.executed.sequin_ejects
    unfold thread_break
    split_ifs <;> rfl

/-- executed.sequin_ejects stays zero in every reachable state. -/
theorem reachable_sequin_zero {s : jobE} (h : reachable s) :
    s.job.executed.sequin_ejects = 0 := by
  induction h with
  | init => rfl
  | @step s e hs ih =>
    show (stepE e s).job.executed.sequin_ejects = 0
    have hj : (stepE e s).job = stepJ e s.job := by
      cases e <;> rfl
    rw [hj, stepJ_sequin_ejects]
    exact ih

/-- C8 (amended).  The counter discipline the code actually implements: a
successful producer poll increments exactly the programmed counter of the
enqueued stitch's type; neither the producer nor the tick touches programmed
otherwise; a dispatching tick increments executed.jumps exactly for a Jump
and schedules one deferred task for Trim / Stop (whose runs increment
executed.trims / executed.thread_changes once each); executed.stitches is
incremented by the needle-trigger interrupt â not at dispatch â except when
the trigger arrives during CYCLE with an await pending; and
executed.sequin_ejects is never incremented.  The original elementwise bound
executed.* ≤ programmed.* does not hold (see the counterexample). -/
theorem C8_counter_discipline_amended :
    (∀ (st scrib : stitch_t) (j : embroidery_job_t),
      j.enqueued = false → j.queue.head + 1 ≠ j.queue.tail →
      (sdcard_read (some st) scrib j).programmed = bump j.programmed st.type ∧
      (sdcard_read (some st) scrib j).executed = j.executed) ∧
    (∀ (env : rt_env) (j : embroidery_job_t),
      (onExecuteRealtime env j).programmed = j.programmed ∧
      ((onExecuteRealtime env j).queue.tail = j.queue.tail →
        (onExecuteRealtime env j).executed = j.executed) ∧
      ((onExecuteRealtime env j).queue.tail ≠ j.queue.tail →
        (onExecuteRealtime env j).executed =
          (if (j.queue.stitch j.queue.tail).type = stich_type_t.Jump then
            { j.executed with jumps := j.executed.jumps + 1 }
          else j.executed) ∧
        (onExecuteRealtime env j).pending_trims =
          j.pending_trims +
            (if (j.queue.stitch j.queue.tail).type = stich_type_t.Trim then 1 else 0) ∧
        (onExecuteRealtime env j).pending_changes =
          j.pending_changes +
            (if (j.queue.stitch j.queue.tail).type = stich_type_t.Stop then 1 else 0))) ∧
    (∀ (ms : Nat) (j : embroidery_job_t),
      (set_needle_trigger ms j).executed.stitches =
        (if j.await.trigger = true ∧ j.machine_state = machine_state_t.Cycle then
          j.executed.stitches
        else j.executed.stitches + 1) ∧
      (set_needle_trigger ms j).programmed = j.programmed) ∧
    (∀ j : embroidery_job_t, 0 < j.pending_trims →
      (run_trim_task j).executed.trims = j.executed.trims + 1 ∧
      (run_trim_task j).pending_trims = j.pending_trims - 1) ∧
    (∀ j : embroidery_job_t, 0 < j.pending_changes →
      (run_change_task j).executed.thread_changes = j.executed.thread_changes + 1 ∧
      (run_change_task j).pending_changes = j.pending_changes - 1) ∧
    (∀ s : jobE, reachable s →
      s.job.executed.sequin_ejects = 0 ∧
      s.job.executed.sequin_ejects ≤ s.job.programmed.sequin_ejects) := by
  refine ⟨?_, ?_, ?_, ?_, ?_, ?_⟩
  · exact sdcard_read_counters
  · intro env j
    exact ⟨tick_programmed env j,
           fun h => (tick_no_dispatch_counters env j h).1,
           fun h => tick_dispatch_counters env j h⟩
  · intro ms j
    exact ⟨(set_needle_trigger_counters ms j).1, (set_needle_trigger_counters ms j).2.2.2.2.2⟩
  · intro j h
    exact ⟨(run_trim_task_counters j h).1, (run_trim_task_counters j h).2.1⟩
  · intro j h
    exact ⟨(run_change_task_counters j h).1, (run_change_task_counters j h).2.1⟩
  · intro s hs
    have h0 := reachable_sequin_zero hs
    exact ⟨h0, by omega⟩

/-- C8 counterexample: one needle-trigger interrupt from the armed initial
state is a reachable step that makes executed.stitches = 1 while
programmed.stitches = 0, so executed.* ≤ programmed.* does not hold
elementwise at all reachable states (the interrupt, not the dispatch,
increments executed.stitches). -/
theorem C8_trigger_exceeds_programmed :
    reachable (stepE (ev.trigger 0) ⟨job_init, 0⟩) ∧
    (stepE (ev.trigger 0) ⟨job_init, 0⟩).job.programmed.stitches <
      (stepE (ev.trigger 0) ⟨job_init, 0⟩).job.executed.stitches :=
  ⟨reachable.step _ reachable.init, by decide⟩

/-- C8 witness: the producer conjunct at the armed initial state and the
trigger conjunct at a concrete state. -/
theorem C8_counter_discipline_amended_witness :
    (sdcard_read (some prev0) prev0 job_init).programmed =
      bump job_init.programmed prev0.type ∧
    (sdcard_read (some prev0) prev0 job_init).executed = job_init.executed :=
  C8_counter_discipline_amended.1 prev0 prev0 job_init rfl (by decide)

/-- A successful brother_open_file arms a non-negative deferred first color,
namely byte 0 of the palette_index table (offset 49 of the PEC section). -/
theorem brother_open_success (f : vfs_file_t) (st : brother.state_t) (api : embroidery_t)
    (h : (brother.brother_open_file f st api).1 = true) :
    0 ≤ ((brother.brother_open_file f st api).2.2.1).first_color ∧
    ((brother.brother_open_file f st api).2.2.1).first_color =
      ((((brother.brother_open_file f st api).2.2.1).pec1).getD 49 0 : Int) := by
  unfold brother.brother_open_file at h ⊢
  dsimp only at h ⊢
  split_ifs at h ⊢ with hdr
  exact ⟨Int.natCast_nonneg _, rfl⟩

/-- C4 (amended).  Brother: after a successful open, the first get_stitch
call returns a synthetic Stop with the first palette color (the byte at
offset 49 of the PEC section) and zero displacement, consuming nothing from
the stream (the file argument is returned untouched).  Tajima: the open
function leaves the decoder state â its pending first_color â unchanged (the
arming assignment is commented out in the source), so the guarantee does not
hold for the Tajima decoder. -/
theorem C4_first_stop_amended :
    (∀ (f : vfs_file_t) (st : brother.state_t) (api : embroidery_t) (prev : stitch_t)
        (f3 : vfs_file_t),
      (brother.brother_open_file f st api).1 = true →
      brother.get_stitch (brother.brother_open_file f st api).2.2.1 prev f3 =
        some (⟨stich_type_t.Stop,
               ((((brother.brother_open_file f st api).2.2.1).first_color % 256)).toNat, 0, 0⟩,
              ⟨((brother.brother_open_file f st api).2.2.1).pec1,
               ((brother.brother_open_file f st api).2.2.1).pec2, -1,
               ((brother.brother_open_file f st api).2.2.1).color_idx⟩, f3) ∧
      ((brother.brother_open_file f st api).2.2.1).first_color =
        ((((brother.brother_open_file f st api).2.2.1).pec1).getD 49 0 : Int)) ∧
    (∀ (f : vfs_file_t) (st : tajima.state_t) (api : embroidery_t),
      (tajima.tajima_open_file f st api).2.2.1 = st) := by
  constructor
  · intro f st api prev f3 h
    have hs := brother_open_success f st api h
    have hne : ((brother.brother_open_file f st api).2.2.1).first_color ≠ -1 := by
      intro heq
      rw [heq] at hs
      exact absurd hs.1 (by omega)
    constructor
    · unfold brother.get_stitch
      rw [if_pos hne]
    · exact hs.2
  · intro f st api
    unfold tajima.tajima_open_file
    rcases hr : vfs_read3 f with _ | ⟨b0, b1, b2, f1⟩ <;> dsimp only <;> split_ifs <;> rfl

/-- A well-formed Tajima file: "LA:" magic, a name line, the 0x1A terminator,
padding to the fixed 512-byte data offset, then one Normal record (+1, 0). -/
def tj_file : vfs_file_t :=
  ⟨[0x4C, 0x41, 0x3A, 110, 97, 109, 101, 13, 0x1A] ++ List.replicate 503 0 ++ [1, 0, 0], 0⟩

/-- C4 counterexample: the Tajima open succeeds on tj_file but leaves
first_color = -1 (unset), so the first get_stitch call reads a record from
the stream and returns a Normal stitch, not the synthetic Stop the claim
requires. -/
theorem C4_tajima_first_stitch_not_stop :
    (tajima.tajima_open_file tj_file ⟨-1⟩ api0).1 = true ∧
    (tajima.tajima_open_file tj_file ⟨-1⟩ api0).2.2.1 = ⟨-1⟩ ∧
    ((tajima.get_stitch ⟨-1⟩ prev0 (tajima.tajima_open_file tj_file ⟨-1⟩ api0).2.1).map
        (fun r => r.1.type)) = some stich_type_t.Normal ∧
    stich_type_t.Normal ≠ stich_type_t.Stop := by
  refine ⟨?_, ?_, ?_, by decide⟩ <;> decide

/-- A well-formed Brother file: "#PES" header with PEC offset 12, a PEC
section whose palette_index[0] (offset 49) is 7, and the dimension
section. -/
def br_file : vfs_file_t :=
  ⟨[0x23, 0x50, 0x45, 0x53, 0, 0, 0, 0, 12, 0, 0, 0] ++ List.replicate 49 0 ++ [7] ++
    List.replicate 498 0, 0⟩

/-- C4 witness: the Brother conjunct at a concrete file. -/
theorem C4_first_stop_amended_witness :
    brother.get_stitch (brother.brother_open_file br_file ⟨[], [], -1, 0⟩ api0).2.2.1 prev0
        ⟨[9], 0⟩ =
      some (⟨stich_type_t.Stop,
             ((((brother.brother_open_file br_file ⟨[], [], -1, 0⟩ api0).2.2.1).first_color %
               256)).toNat, 0, 0⟩,
            ⟨((brother.brother_open_file br_file ⟨[], [], -1, 0⟩ api0).2.2.1).pec1,
             ((brother.brother_open_file br_file ⟨[], [], -1, 0⟩ api0).2.2.1).pec2, -1,
             ((brother.brother_open_file br_file ⟨[], [], -1, 0⟩ api0).2.2.1).color_idx⟩,
            ⟨[9], 0⟩) ∧
    ((brother.brother_open_file br_file ⟨[], [], -1, 0⟩ api0).2.2.1).first_color =
      ((((brother.brother_open_file br_file ⟨[], [], -1, 0⟩ api0).2.2.1).pec1).getD 49 0 : Int) :=
  C4_first_stop_amended.1 br_file ⟨[], [], -1, 0⟩ api0 prev0 ⟨[9], 0⟩ (by decide)

end claims
